import Mathlib

/-!
Formal model of the UGI Rankings tournament system.

The Elo computation is embedded from `calculateEloChange` in
src/tests/elo-rating.test.ts, which coincides with the per-game formula of
`updateRatings` in database.ts; JavaScript numbers are modelled as real
numbers and `Math.round` as Mathlib's `round` (both round half towards
positive infinity on the values involved).  The persistence and
orchestration code is embedded from the copies of database.ts and index.ts
concatenated into src/Dockerfile: the engines and games tables, addEngine,
updateRatings, recordGameResult, getRankings and getPairGameCounts from
database.ts (src/Dockerfile lines 38-250), and autoLoadEngines and the
rating step of recordMatchSetResult from index.ts (lines 1533-1560 and
1664-1721).  SQL statements and JavaScript Map operations are modelled as
pure functions on table and map states.
-/

/-- Expected score of a player rated `ratingA` against a player rated
`ratingB`, as computed inside `calculateEloChange`
(src/tests/elo-rating.test.ts), in `updateRatings` and in
`recordMatchSetResult`: `E1 = 1 / (1 + 10^((R2 - R1) / 400))`. -/
noncomputable def expectedScore (ratingA ratingB : ℝ) : ℝ :=
  1 / (1 + (10 : ℝ) ^ ((ratingB - ratingA) / 400))

/-- Embedding of `calculateEloChange` from src/tests/elo-rating.test.ts:
from both ratings, the first player's aggregate score and the K factor it
returns the pair of new rounded ratings
`(round (ratingA + k*(scoreA - expectedA)), round (ratingB + k*(scoreB - expectedB)))`
with `scoreB = 1 - scoreA` and each expected score computed by the Elo
logistic formula.  The per-game updater `updateRatings` in database.ts
(src/Dockerfile lines 99-129) performs the identical computation at
K = 32. -/
noncomputable def calculateEloChange (ratingA ratingB scoreA k : ℝ) : ℤ × ℤ :=
  let expectedA := 1 / (1 + (10 : ℝ) ^ ((ratingB - ratingA) / 400))
  let expectedB := 1 / (1 + (10 : ℝ) ^ ((ratingA - ratingB) / 400))
  let scoreB := 1 - scoreA
  let newRatingA := round (ratingA + k * (scoreA - expectedA))
  let newRatingB := round (ratingB + k * (scoreB - expectedB))
  (newRatingA, newRatingB)

/-- Rating delta of engine 1 produced by the Elo update at K = 32, for
integer stored ratings: the new rating minus the old one. -/
noncomputable def eloDelta1 (r1 r2 : ℤ) (a1 : ℝ) : ℤ :=
  (calculateEloChange (r1 : ℝ) (r2 : ℝ) a1 32).1 - r1

/-- Rating delta of engine 2 produced by the Elo update at K = 32. -/
noncomputable def eloDelta2 (r1 r2 : ℤ) (a1 : ℝ) : ℤ :=
  (calculateEloChange (r1 : ℝ) (r2 : ℝ) a1 32).2 - r2

lemma one_add_tenPow_pos (t : ℝ) : 0 < 1 + (10 : ℝ) ^ t := by
  have h := Real.rpow_pos_of_pos (by norm_num : (0:ℝ) < 10) t
  linarith

/-- The second player's expected score is exactly the complement of the
first player's: `E2 = 1 - E1`. -/
lemma expectedScore_compl (a b : ℝ) :
    1 / (1 + (10 : ℝ) ^ ((a - b) / 400)) = 1 - expectedScore a b := by
  unfold expectedScore
  have hE : (a - b) / 400 = -((b - a) / 400) := by ring
  rw [hE, Real.rpow_neg (by norm_num : (0:ℝ) ≤ 10)]
  have h1 : (0:ℝ) < 1 + (10 : ℝ) ^ ((b - a) / 400) := one_add_tenPow_pos _
  have h2 : (0:ℝ) < (10 : ℝ) ^ ((b - a) / 400) :=
    Real.rpow_pos_of_pos (by norm_num) _
  have hx : (10 : ℝ) ^ ((b - a) / 400) ≠ 0 := ne_of_gt h2
  have h1x : 1 + (10 : ℝ) ^ ((b - a) / 400) ≠ 0 := ne_of_gt h1
  rw [eq_sub_iff_add_eq]
  field_simp
  ring

lemma eloDelta1_eq (r1 r2 : ℤ) (a1 : ℝ) :
    eloDelta1 r1 r2 a1 = round ((32 : ℝ) * (a1 - expectedScore (r1 : ℝ) (r2 : ℝ))) := by
  unfold eloDelta1
  simp only [calculateEloChange]
  rw [round_int_add, add_sub_cancel_left]
  rfl

lemma eloDelta2_eq (r1 r2 : ℤ) (a1 : ℝ) :
    eloDelta2 r1 r2 a1 =
      round ((32 : ℝ) * ((1 - a1) - (1 - expectedScore (r1 : ℝ) (r2 : ℝ)))) := by
  unfold eloDelta2
  simp only [calculateEloChange]
  rw [round_int_add, add_sub_cancel_left, expectedScore_compl]

lemma tenPow_half_mul_self : ((10:ℝ) ^ ((1:ℝ)/2)) * ((10:ℝ) ^ ((1:ℝ)/2)) = 10 := by
  rw [← Real.rpow_add (by norm_num : (0:ℝ) < 10)]
  norm_num

lemma tenPow_half_gt : 3 < (10:ℝ) ^ ((1:ℝ)/2) := by
  have hpos := Real.rpow_pos_of_pos (show (0:ℝ) < 10 by norm_num) ((1:ℝ)/2)
  nlinarith [tenPow_half_mul_self]

lemma tenPow_half_lt : (10:ℝ) ^ ((1:ℝ)/2) < 3.2 := by
  nlinarith [tenPow_half_mul_self, sq_nonneg ((10:ℝ) ^ ((1:ℝ)/2) - 16/5)]

lemma expectedScore_1400_1600 :
    expectedScore ((1400 : ℤ) : ℝ) ((1600 : ℤ) : ℝ) =
      1 / (1 + (10:ℝ) ^ ((1:ℝ)/2)) := by
  unfold expectedScore
  norm_num

lemma round_upset_pos : round ((32:ℝ) * (1 - 1 / (1 + (10:ℝ) ^ ((1:ℝ)/2)))) = 24 := by
  have h3 : 3 < (10:ℝ) ^ ((1:ℝ)/2) := tenPow_half_gt
  have h32 : (10:ℝ) ^ ((1:ℝ)/2) < 3.2 := tenPow_half_lt
  have h1s : (0:ℝ) < 1 + (10:ℝ) ^ ((1:ℝ)/2) := by linarith
  have htlt : 1 / (1 + (10:ℝ) ^ ((1:ℝ)/2)) < 1 / 4 := by
    rw [div_lt_div_iff h1s (by norm_num)]
    linarith
  have htgt : 1 / (4.2 : ℝ) < 1 / (1 + (10:ℝ) ^ ((1:ℝ)/2)) := by
    rw [div_lt_div_iff (by norm_num) h1s]
    linarith
  rw [round_eq, Int.floor_eq_iff]
  constructor
  · push_cast
    linarith
  · push_cast
    linarith

lemma round_upset_neg :
    round ((32:ℝ) * ((1 - 1) - (1 - 1 / (1 + (10:ℝ) ^ ((1:ℝ)/2))))) = -24 := by
  have h3 : 3 < (10:ℝ) ^ ((1:ℝ)/2) := tenPow_half_gt
  have h32 : (10:ℝ) ^ ((1:ℝ)/2) < 3.2 := tenPow_half_lt
  have h1s : (0:ℝ) < 1 + (10:ℝ) ^ ((1:ℝ)/2) := by linarith
  have htlt : 1 / (1 + (10:ℝ) ^ ((1:ℝ)/2)) < 1 / 4 := by
    rw [div_lt_div_iff h1s (by norm_num)]
    linarith
  have htgt : 1 / (4.2 : ℝ) < 1 / (1 + (10:ℝ) ^ ((1:ℝ)/2)) := by
    rw [div_lt_div_iff (by norm_num) h1s]
    linarith
  rw [round_eq, Int.floor_eq_iff]
  constructor
  · push_cast
    linarith
  · push_cast
    linarith

/-- C1: for all integer ratings and an aggregate score in the unit interval,
the Elo update produces the deltas `round (K * (A1 - E1))` and
`round (K * ((1 - A1) - (1 - E1)))` with `E1 = 1 / (1 + 10^((R2 - R1)/400))`
and K = 32; in particular at R1 = 1400, R2 = 1600, A1 = 1 the deltas are
24 and -24. -/
theorem elo_update_matches_formula :
    (∀ (r1 r2 : ℤ) (a1 : ℝ), 0 ≤ a1 → a1 ≤ 1 →
      eloDelta1 r1 r2 a1 = round ((32 : ℝ) * (a1 - expectedScore (r1 : ℝ) (r2 : ℝ))) ∧
      eloDelta2 r1 r2 a1 =
        round ((32 : ℝ) * ((1 - a1) - (1 - expectedScore (r1 : ℝ) (r2 : ℝ))))) ∧
    eloDelta1 1400 1600 1 = 24 ∧ eloDelta2 1400 1600 1 = -24 := by
  refine ⟨fun r1 r2 a1 _ _ => ⟨eloDelta1_eq r1 r2 a1, eloDelta2_eq r1 r2 a1⟩, ?_, ?_⟩
  · rw [eloDelta1_eq, expectedScore_1400_1600]
    exact round_upset_pos
  · rw [eloDelta2_eq, expectedScore_1400_1600]
    exact round_upset_neg

/-- Witness for C1: the proved formula applied at the concrete input
R1 = 1500, R2 = 1600, A1 = 1. -/
theorem elo_update_matches_formula_witness :
    eloDelta1 1500 1600 1 =
      round ((32 : ℝ) * (1 - expectedScore ((1500 : ℤ) : ℝ) ((1600 : ℤ) : ℝ))) :=
  (elo_update_matches_formula.1 1500 1600 1 (by norm_num) (by norm_num)).1

/-- C2: the two deltas of one Elo update cancel up to the independent
rounding of each side: their sum has absolute value at most 1. -/
theorem elo_conserves_total (r1 r2 : ℤ) (a1 : ℝ) (h0 : 0 ≤ a1) (h1 : a1 ≤ 1) :
    |eloDelta1 r1 r2 a1 + eloDelta2 r1 r2 a1| ≤ 1 := by
  rw [eloDelta1_eq, eloDelta2_eq]
  have hneg : (32:ℝ) * ((1 - a1) - (1 - expectedScore (r1 : ℝ) (r2 : ℝ))) =
      -((32:ℝ) * (a1 - expectedScore (r1 : ℝ) (r2 : ℝ))) := by ring
  rw [hneg]
  have hx1 := abs_sub_round ((32:ℝ) * (a1 - expectedScore (r1 : ℝ) (r2 : ℝ)))
  have hx2 := abs_sub_round (-((32:ℝ) * (a1 - expectedScore (r1 : ℝ) (r2 : ℝ))))
  rw [abs_le] at hx1 hx2
  have habs : |((round ((32:ℝ) * (a1 - expectedScore (r1 : ℝ) (r2 : ℝ))) +
      round (-((32:ℝ) * (a1 - expectedScore (r1 : ℝ) (r2 : ℝ)))) : ℤ) : ℝ)| ≤ 1 := by
    push_cast
    rw [abs_le]
    constructor <;> linarith [hx1.1, hx1.2, hx2.1, hx2.2]
  exact_mod_cast habs

/-- Witness for C2: conservation at the concrete upset input. -/
theorem elo_conserves_total_witness :
    |eloDelta1 1400 1600 1 + eloDelta2 1400 1600 1| ≤ 1 :=
  elo_conserves_total 1400 1600 1 (by norm_num) (by norm_num)

/-- C3: swapping the two engines (ratings swapped, score complemented)
produces the same two new ratings with their roles exchanged. -/
theorem elo_symmetric (r1 r2 a1 : ℝ) :
    calculateEloChange r2 r1 (1 - a1) 32 =
      ((calculateEloChange r1 r2 a1 32).2, (calculateEloChange r1 r2 a1 32).1) := by
  simp only [calculateEloChange, Prod.mk.injEq]
  refine ⟨trivial, ?_⟩
  congr 1
  ring

/-- Witness for C3: symmetry at the concrete input 1500 / 1600 with score 1. -/
theorem elo_symmetric_witness :
    calculateEloChange 1600 1500 (1 - 1) 32 =
      ((calculateEloChange 1500 1600 1 32).2, (calculateEloChange 1500 1600 1 32).1) :=
  elo_symmetric 1500 1600 1

/-- Result of one game from engine1's perspective: the values
win / loss / draw / error of the GameResult type in index.ts and the
tests. -/
inductive GameOutcome where
  | win
  | loss
  | draw
  | error
deriving DecidableEq

/-- Score a game contributes to engine1, as accumulated by `playMatchSet`
(src/Dockerfile lines 1592-1625, the embedded index.ts): a win 1, a draw
0.5, a loss 0; an error game adds nothing. -/
def outcomeScore1 : GameOutcome → ℚ
  | .win => 1
  | .loss => 0
  | .draw => 1/2
  | .error => 0

/-- Score a game contributes to engine2 in `playMatchSet`. -/
def outcomeScore2 : GameOutcome → ℚ
  | .win => 0
  | .loss => 1
  | .draw => 1/2
  | .error => 0

/-- engine1Score of a MatchSetResult: the sum accumulated over the played
games by `playMatchSet`. -/
def engine1Score (gs : List GameOutcome) : ℚ := (gs.map outcomeScore1).sum

/-- engine2Score of a MatchSetResult. -/
def engine2Score (gs : List GameOutcome) : ℚ := (gs.map outcomeScore2).sum

/-- Embedding of the rating step of `recordMatchSetResult`
(src/Dockerfile lines 1664-1721, the embedded index.ts).  Inside the
transaction every game of the match set, error games included, is first
inserted via recordGameResult with rating updates off; then both ratings
are read, `expectedScore1 = 1 / (1 + 10^((R2 - R1)/400))` and
`expectedScore2 = 1 - expectedScore1`, the actual scores are
`engine1Score / totalGames` and `engine2Score / totalGames` where
`totalGames` is the length of the games list - error games are counted in
this denominator, there is no branch for zero non-error games - and each
rating moves by `round (K * (actual - expected))` with K = 32.  A match
set with an empty games list would divide 0 by 0 (JavaScript NaN), so the
theorems about this function assume a nonempty list. -/
noncomputable def recordMatchSetResult (r1 r2 : ℤ) (gs : List GameOutcome) : ℤ × ℤ :=
  let totalGames := gs.length
  let expectedScore1 := expectedScore (r1 : ℝ) (r2 : ℝ)
  let expectedScore2 := 1 - expectedScore1
  let actualScore1 : ℝ := (engine1Score gs : ℝ) / (totalGames : ℝ)
  let actualScore2 : ℝ := (engine2Score gs : ℝ) / (totalGames : ℝ)
  let ratingChange1 := round ((32 : ℝ) * (actualScore1 - expectedScore1))
  let ratingChange2 := round ((32 : ℝ) * (actualScore2 - expectedScore2))
  (r1 + ratingChange1, r2 + ratingChange2)

/-- Result of the startup engine auto-load: how many engines were loaded
and the console lines logged. -/
structure AutoLoadResult where
  loadedEngines : ℕ
  logs : List String
deriving DecidableEq

/-- Embedding of `autoLoadEngines` (src/Dockerfile lines 1533-1560, the
embedded index.ts).  The file system is abstracted as the optional content
of the configuration file and `loadEnginesFromConfig` as the `load`
argument returning the (loaded, skipped) counts or an error; log text is
abbreviated to one entry per console call.  A missing file logs two lines
(a notice and a hint) and returns with no engines loaded; a load failure,
invalid JSON included, is caught and logged as a warning plus a hint and
the startup proceeds; the function never fails. -/
def autoLoadEngines (file : Option String)
    (load : String → Except String (ℕ × ℕ)) : AutoLoadResult :=
  match file with
  | none =>
    ⟨0, ["No config file found at ./engines.json",
         "Create an engines.json file or use load-config command to add engines"]⟩
  | some content =>
    match load content with
    | Except.ok lr =>
      ⟨lr.1, ["Auto-loading engines from ./engines.json..."] ++
        (if 0 < lr.1 then ["Auto-loaded " ++ toString lr.1 ++ " new engines"] else []) ++
        (if 0 < lr.2 then [toString lr.2 ++ " engines already exist"] else []) ++
        ["Total engines"]⟩
    | Except.error e =>
      ⟨0, ["Auto-loading engines from ./engines.json...",
           "Failed to auto-load engines: " ++ e,
           "You can manually load engines using the load-config command"]⟩

/-- JavaScript Map.set on a string-keyed map: overwrite the binding of an
existing key or append a new one. -/
def mapSet (m : List ((ℕ × ℕ) × ℕ)) (k : ℕ × ℕ) (c : ℕ) : List ((ℕ × ℕ) × ℕ) :=
  match m with
  | [] => [(k, c)]
  | (k₁, c₁) :: rest => if k₁ = k then (k, c) :: rest else (k₁, c₁) :: mapSet rest k c

/-- JavaScript Map.get: the binding of the key, if any. -/
def mapGet (m : List ((ℕ × ℕ) × ℕ)) (k : ℕ × ℕ) : Option ℕ :=
  match m with
  | [] => none
  | (k₁, c) :: rest => if k₁ = k then some c else mapGet rest k

/-- The writes of one result row in getPairGameCounts: the count is stored
under both orientations of the key. -/
def setPairRow (m : List ((ℕ × ℕ) × ℕ)) (r : ℕ × ℕ × ℕ) : List ((ℕ × ℕ) × ℕ) :=
  mapSet (mapSet m (r.1, r.2.1) r.2.2) (r.2.1, r.1) r.2.2

/-- Embedding of `getPairGameCounts` (src/Dockerfile lines 225-239, the
embedded database.ts).  The SQL aggregates the games table by the ordered
pair (engine1_id, engine2_id); each result row (i, j, c) stores its count
under both the key "i-j" and the key "j-i" - string keys modelled as
ordered id pairs - with rows processed in order under Map.set semantics,
so when rows for both orientations of a pair coexist the later row
overwrites the earlier bindings. -/
def getPairGameCounts (rows : List (ℕ × ℕ × ℕ)) : List ((ℕ × ℕ) × ℕ) :=
  rows.foldl setPairRow []

/-- Two aggregated rows describe the same unordered engine pair. -/
def samePair (r s : ℕ × ℕ × ℕ) : Prop :=
  (r.1 = s.1 ∧ r.2.1 = s.2.1) ∨ (r.1 = s.2.1 ∧ r.2.1 = s.1)

/-- Row of the `engines` table as created by initializeDatabase
(src/Dockerfile lines 43-53, the embedded database.ts): SERIAL id, UNIQUE
name, integer rating defaulting to 1500, nullable description, and the
play counters defaulting to zero. -/
structure EngineRow where
  id : ℕ
  name : String
  rating : ℤ
  description : Option String
  gamesPlayed : ℕ
  wins : ℕ
  losses : ℕ
  draws : ℕ
deriving DecidableEq

/-- Embedding of `addEngine` (src/Dockerfile lines 86-97, the embedded
database.ts) together with the engines schema of initializeDatabase (lines
43-53): the INSERT stores name, rating and description and returns the
SERIAL id of the new row, modelled as one more than the largest id in the
table.  The TypeScript signature defaults a missing rating to 1500 and
leaves a missing description undefined (null in the row); both optional
arguments are modelled as options with those defaults.  The name column is
UNIQUE, so an existing name makes the INSERT fail with the duplicate-key
error (as the integration test expects) and the rejected statement writes
nothing: the table is unchanged. -/
def addEngine (table : List EngineRow) (name : String) (rating : Option ℤ)
    (description : Option String) : Except String (List EngineRow × ℕ) :=
  if table.any (fun r => r.name = name) then
    Except.error "duplicate key value violates unique constraint"
  else
    let id := (table.map (fun r => r.id)).foldr max 0 + 1
    Except.ok (table ++ [⟨id, name, rating.getD 1500, description, 0, 0, 0, 0⟩], id)

/-- A stored game row (games table, src/Dockerfile lines 55-74), reduced
to the fields the claims touch: both engine ids, the winner (engine1 on
'win', engine2 otherwise, null on a draw), the draw flag and both ratings
read before the insert. -/
structure GameRow where
  engine1Id : ℕ
  engine2Id : ℕ
  winnerId : Option ℕ
  isDraw : Bool
  engine1RatingBefore : ℤ
  engine2RatingBefore : ℤ
deriving DecidableEq

/-- The persistent state: the engines table and the append-only games table. -/
structure Database where
  engines : List EngineRow
  games : List GameRow
deriving DecidableEq

/-- A submitted game result: the input of recordGameResult. -/
structure GameInput where
  engine1Id : ℕ
  engine2Id : ℕ
  result : GameOutcome
deriving DecidableEq

/-- The rating read `SELECT rating FROM engines WHERE id = $1`: the row
with the given id, if any. -/
def findEngine (engines : List EngineRow) (id : ℕ) : Option EngineRow :=
  engines.find? (fun r => r.id = id)

/-- Embedding of `updateRatings` (src/Dockerfile lines 99-129, the
embedded database.ts): reads both ratings and applies the per-game Elo
update - the identical computation to calculateEloChange at K = 32, with
score 1 / 0 for a decisive game and 0.5 / 0.5 for a draw - then writes the
new ratings, increments games_played on both rows, and increments the
winner's wins and the loser's losses, or both draws counters.  The source
reads rows[0] unconditionally and is only called with both ids present;
the fallback branch here returns the table unchanged. -/
noncomputable def updateRatings (engines : List EngineRow)
    (engine1Id engine2Id : ℕ) (isDraw : Bool) : List EngineRow :=
  match findEngine engines engine1Id, findEngine engines engine2Id with
  | some e1, some e2 =>
    let score1 : ℝ := if isDraw then 1/2 else 1
    let newRatings := calculateEloChange (e1.rating : ℝ) (e2.rating : ℝ) score1 32
    engines.map (fun r =>
      if r.id = engine1Id then
        { r with
          rating := newRatings.1
          gamesPlayed := r.gamesPlayed + 1
          wins := if isDraw then r.wins else r.wins + 1
          draws := if isDraw then r.draws + 1 else r.draws }
      else if r.id = engine2Id then
        { r with
          rating := newRatings.2
          gamesPlayed := r.gamesPlayed + 1
          losses := if isDraw then r.losses else r.losses + 1
          draws := if isDraw then r.draws + 1 else r.draws }
      else r)
  | _, _ => engines

/-- Embedding of `recordGameResult` (src/Dockerfile lines 154-210, the
embedded database.ts), reduced to the fields the claims touch: the draw
flag is set on 'draw' and the winner is engine1 on 'win' and engine2
otherwise (null on a draw); both engines' current ratings are read before
any insert, and a missing row fails the call with
'One or both engines not found' before anything is written, so the games
table is unchanged on that error; otherwise the game row is appended and,
when shouldUpdateRatings is set and the result is not an error,
updateRatings is applied. -/
noncomputable def recordGameResult (db : Database) (g : GameInput)
    (shouldUpdateRatings : Bool) : Except String Database :=
  let isDraw := decide (g.result = GameOutcome.draw)
  let winnerId : Option ℕ :=
    if isDraw then none
    else if g.result = GameOutcome.win then some g.engine1Id else some g.engine2Id
  match findEngine db.engines g.engine1Id, findEngine db.engines g.engine2Id with
  | some e1, some e2 =>
    let games := db.games ++
      [⟨g.engine1Id, g.engine2Id, winnerId, isDraw, e1.rating, e2.rating⟩]
    let engines :=
      if shouldUpdateRatings = true ∧ g.result ≠ GameOutcome.error then
        updateRatings db.engines g.engine1Id g.engine2Id isDraw
      else db.engines
    Except.ok ⟨engines, games⟩
  | _, _ => Except.error "One or both engines not found"

/-- A rankings row: the columns selected by getRankings, the description
column present only in the detailed variant (null otherwise). -/
structure RankingRow where
  name : String
  rating : ℤ
  gamesPlayed : ℕ
  wins : ℕ
  losses : ℕ
  draws : ℕ
  description : Option String
deriving DecidableEq

/-- Embedding of `getRankings` (src/Dockerfile lines 131-142, the embedded
database.ts): SELECT name, rating, games_played, wins, losses, draws -
plus description when detailed - FROM engines ORDER BY rating DESC LIMIT
limit.  The SQL sort is modelled as a merge sort by non-increasing rating
and LIMIT as take. -/
def getRankings (table : List EngineRow) (limit : ℕ) (detailed : Bool) :
    List RankingRow :=
  ((table.mergeSort (fun a b => b.rating ≤ a.rating)).take limit).map
    (fun r => ⟨r.name, r.rating, r.gamesPlayed, r.wins, r.losses, r.draws,
      if detailed then r.description else none⟩)

lemma engine1Score_cons_error (gs : List GameOutcome) :
    engine1Score (GameOutcome.error :: gs) = engine1Score gs := by
  simp [engine1Score, outcomeScore1]

lemma engine2Score_cons_error (gs : List GameOutcome) :
    engine2Score (GameOutcome.error :: gs) = engine2Score gs := by
  simp [engine2Score, outcomeScore2]

lemma engine1Score_all_error (gs : List GameOutcome)
    (hall : ∀ g ∈ gs, g = GameOutcome.error) : engine1Score gs = 0 := by
  unfold engine1Score
  apply List.sum_eq_zero
  intro x hx
  rcases List.mem_map.mp hx with ⟨g, hg, hgx⟩
  rw [← hgx, hall g hg]
  rfl

lemma engine2Score_all_error (gs : List GameOutcome)
    (hall : ∀ g ∈ gs, g = GameOutcome.error) : engine2Score gs = 0 := by
  unfold engine2Score
  apply List.sum_eq_zero
  intro x hx
  rcases List.mem_map.mp hx with ⟨g, hg, hgx⟩
  rw [← hgx, hall g hg]
  rfl

lemma recordMatchSetResult_all_error (r1 r2 : ℤ) (gs : List GameOutcome)
    (hall : ∀ g ∈ gs, g = GameOutcome.error) :
    recordMatchSetResult r1 r2 gs =
      (r1 + round ((32 : ℝ) * (0 - expectedScore (r1 : ℝ) (r2 : ℝ))),
       r2 + round ((32 : ℝ) * (0 - (1 - expectedScore (r1 : ℝ) (r2 : ℝ))))) := by
  simp only [recordMatchSetResult, engine1Score_all_error gs hall,
    engine2Score_all_error gs hall]
  norm_num

/-- Counterexample to C4 as stated: the updater of recordMatchSetResult
divides by totalGames with error games included and has no branch for a
match set without non-error games, so a match set consisting of one error
game - whose N in the claim's sense is 0 - changes both ratings: at equal
ratings 1500 each engine loses 16 points. -/
theorem all_error_match_set_changes_ratings :
    recordMatchSetResult 1500 1500 [GameOutcome.error] = (1484, 1484) ∧
    recordMatchSetResult 1500 1500 [GameOutcome.error] ≠ (1500, 1500) := by
  have hE : expectedScore ((1500 : ℤ) : ℝ) ((1500 : ℤ) : ℝ) = 1 / 2 := by
    unfold expectedScore
    norm_num [Real.rpow_zero]
  have h := recordMatchSetResult_all_error 1500 1500 [GameOutcome.error] (by decide)
  rw [hE] at h
  have hr1 : round ((32 : ℝ) * (0 - 1 / 2)) = -16 := by
    have hc : ((32 : ℝ) * (0 - 1 / 2)) = ((-16 : ℤ) : ℝ) := by norm_num
    rw [hc, round_intCast]
  have hr2 : round ((32 : ℝ) * (0 - (1 - 1 / 2))) = -16 := by
    have hc : ((32 : ℝ) * (0 - (1 - 1 / 2))) = ((-16 : ℤ) : ℝ) := by norm_num
    rw [hc, round_intCast]
  rw [hr1, hr2] at h
  norm_num at h
  refine ⟨h, ?_⟩
  rw [h]
  decide

/-- C4 (amended): when a match set is persisted every game, error games
included, is recorded (each is inserted with per-game rating updates off),
and an error game contributes 0 to both engines' scores; but the score
denominator totalGames counts all games, error games included, and a
nonempty match set consisting only of error games does change the
ratings: each engine moves by round (32 * (0 - E)). -/
theorem error_games_score_zero_but_counted :
    (∀ gs, engine1Score (GameOutcome.error :: gs) = engine1Score gs ∧
      engine2Score (GameOutcome.error :: gs) = engine2Score gs) ∧
    (∀ (r1 r2 : ℤ) (gs : List GameOutcome), gs ≠ [] →
      (∀ g ∈ gs, g = GameOutcome.error) →
      recordMatchSetResult r1 r2 gs =
        (r1 + round ((32 : ℝ) * (0 - expectedScore (r1 : ℝ) (r2 : ℝ))),
         r2 + round ((32 : ℝ) * (0 - (1 - expectedScore (r1 : ℝ) (r2 : ℝ)))))) := by
  refine ⟨fun gs => ⟨engine1Score_cons_error gs, engine2Score_cons_error gs⟩, ?_⟩
  intro r1 r2 gs _ hall
  exact recordMatchSetResult_all_error r1 r2 gs hall

/-- Witness for C4: the amended theorem at two error games with ratings
1500 and 1600. -/
theorem error_games_score_zero_but_counted_witness :
    recordMatchSetResult 1500 1600 [GameOutcome.error, GameOutcome.error] =
      (1500 + round ((32 : ℝ) * (0 - expectedScore ((1500 : ℤ) : ℝ) ((1600 : ℤ) : ℝ))),
       1600 + round ((32 : ℝ) * (0 - (1 - expectedScore ((1500 : ℤ) : ℝ) ((1600 : ℤ) : ℝ))))) :=
  error_games_score_zero_but_counted.2 1500 1600 [GameOutcome.error, GameOutcome.error]
    (by decide) (by decide)

/-- Counterexample to C5 as stated: with the configuration file missing
the startup loader logs two lines, not one. -/
theorem missing_config_logs_twice :
    (autoLoadEngines none (fun _ => Except.error "unused")).logs.length = 2 ∧
    (autoLoadEngines none (fun _ => Except.error "unused")).logs.length ≠ 1 :=
  ⟨rfl, by decide⟩

/-- C5 (amended): for every startup with a nonexistent configuration path
the loader returns without raising an error, with no engines loaded and
exactly two log lines (a notice that no config file was found and a
hint). -/
theorem missing_config_starts_empty (load : String → Except String (ℕ × ℕ)) :
    autoLoadEngines none load =
      ⟨0, ["No config file found at ./engines.json",
           "Create an engines.json file or use load-config command to add engines"]⟩ :=
  rfl

/-- Witness for C5: the loader at a concrete loadEnginesFromConfig. -/
theorem missing_config_starts_empty_witness :
    autoLoadEngines none (fun _ => Except.ok (0, 0)) =
      ⟨0, ["No config file found at ./engines.json",
           "Create an engines.json file or use load-config command to add engines"]⟩ :=
  missing_config_starts_empty (fun _ => Except.ok (0, 0))

lemma mapGet_mapSet_self (m : List ((ℕ × ℕ) × ℕ)) (k : ℕ × ℕ) (c : ℕ) :
    mapGet (mapSet m k c) k = some c := by
  induction m with
  | nil => simp [mapSet, mapGet]
  | cons e rest ih =>
    obtain ⟨k₁, c₁⟩ := e
    by_cases h : k₁ = k
    · simp [mapSet, h, mapGet]
    · simp [mapSet, h, mapGet, ih]

lemma mapGet_mapSet_ne (m : List ((ℕ × ℕ) × ℕ)) (k q : ℕ × ℕ) (c : ℕ)
    (hne : k ≠ q) : mapGet (mapSet m k c) q = mapGet m q := by
  induction m with
  | nil => simp [mapSet, mapGet, hne]
  | cons e rest ih =>
    obtain ⟨k₁, c₁⟩ := e
    by_cases h : k₁ = k
    · subst h
      simp [mapSet, mapGet, hne]
    · simp [mapSet, h, mapGet, ih]

lemma setPairRow_get_ne (m : List ((ℕ × ℕ) × ℕ)) (r : ℕ × ℕ × ℕ) (q : ℕ × ℕ)
    (hq1 : ((r.1, r.2.1) : ℕ × ℕ) ≠ q) (hq2 : ((r.2.1, r.1) : ℕ × ℕ) ≠ q) :
    mapGet (setPairRow m r) q = mapGet m q := by
  unfold setPairRow
  rw [mapGet_mapSet_ne _ _ _ _ hq2, mapGet_mapSet_ne _ _ _ _ hq1]

lemma samePair_comm {r s : ℕ × ℕ × ℕ} (h : samePair r s) : samePair s r := by
  rcases h with ⟨h1, h2⟩ | ⟨h1, h2⟩
  · exact Or.inl ⟨h1.symm, h2.symm⟩
  · exact Or.inr ⟨h2.symm, h1.symm⟩

lemma foldl_setPairRow_preserve (i j c : ℕ) :
    ∀ (rows : List (ℕ × ℕ × ℕ)), (∀ r ∈ rows, ¬ samePair r (i, j, c)) →
      ∀ m, mapGet (rows.foldl setPairRow m) (i, j) = mapGet m (i, j) ∧
        mapGet (rows.foldl setPairRow m) (j, i) = mapGet m (j, i) := by
  intro rows
  induction rows with
  | nil => intro _ m; exact ⟨rfl, rfl⟩
  | cons r rest ih =>
    intro hall m
    have hr := hall r (List.mem_cons_self r rest)
    rw [samePair] at hr
    push_neg at hr
    obtain ⟨h1, h2⟩ := hr
    have k1ij : ((r.1, r.2.1) : ℕ × ℕ) ≠ (i, j) := by
      intro h
      have hp := Prod.ext_iff.mp h
      exact h1 hp.1 hp.2
    have k2ij : ((r.2.1, r.1) : ℕ × ℕ) ≠ (i, j) := by
      intro h
      have hp := Prod.ext_iff.mp h
      exact h2 hp.2 hp.1
    have k1ji : ((r.1, r.2.1) : ℕ × ℕ) ≠ (j, i) := by
      intro h
      have hp := Prod.ext_iff.mp h
      exact h2 hp.1 hp.2
    have k2ji : ((r.2.1, r.1) : ℕ × ℕ) ≠ (j, i) := by
      intro h
      have hp := Prod.ext_iff.mp h
      exact h1 hp.2 hp.1
    have hrest : ∀ s ∈ rest, ¬ samePair s (i, j, c) :=
      fun s hs => hall s (List.mem_cons_of_mem r hs)
    have hstep := ih hrest (setPairRow m r)
    rw [List.foldl_cons]
    constructor
    · rw [hstep.1, setPairRow_get_ne m r (i, j) k1ij k2ij]
    · rw [hstep.2, setPairRow_get_ne m r (j, i) k1ji k2ji]

lemma foldl_setPairRow_mem (i j c : ℕ) :
    ∀ (rows : List (ℕ × ℕ × ℕ)), (i, j, c) ∈ rows →
      rows.Pairwise (fun r s => ¬ samePair r s) →
      ∀ m, mapGet (rows.foldl setPairRow m) (i, j) = some c ∧
        mapGet (rows.foldl setPairRow m) (j, i) = some c := by
  intro rows
  induction rows with
  | nil => intro hmem; cases hmem
  | cons r rest ih =>
    intro hmem hdist m
    have hcons := List.pairwise_cons.mp hdist
    rcases List.mem_cons.mp hmem with heq | hmem₂
    · subst heq
      have hall : ∀ s ∈ rest, ¬ samePair s (i, j, c) := by
        intro s hs hsp
        exact hcons.1 s hs (samePair_comm hsp)
      have hpres := foldl_setPairRow_preserve i j c rest hall (setPairRow m (i, j, c))
      rw [List.foldl_cons]
      constructor
      · rw [hpres.1]
        show mapGet (mapSet (mapSet m (i, j) c) (j, i) c) (i, j) = some c
        by_cases hij : ((j, i) : ℕ × ℕ) = (i, j)
        · rw [hij, mapGet_mapSet_self]
        · rw [mapGet_mapSet_ne _ _ _ _ hij, mapGet_mapSet_self]
      · rw [hpres.2]
        show mapGet (mapSet (mapSet m (i, j) c) (j, i) c) (j, i) = some c
        rw [mapGet_mapSet_self]
    · rw [List.foldl_cons]
      exact ih hmem₂ hcons.2 (setPairRow m r)

/-- Counterexample to C6 as stated: when the games table holds games of a
pair in both orientations the aggregated rows (1, 2, 5) and (2, 1, 3)
coexist, and the later row overwrites both keys, so the map returns 3 -
not the stored count 5 for engines 1 and 2 - under the key (1, 2). -/
theorem pair_counts_overwrite :
    mapGet (getPairGameCounts [(1, 2, 5), (2, 1, 3)]) (1, 2) = some 3 ∧
    mapGet (getPairGameCounts [(1, 2, 5), (2, 1, 3)]) (1, 2) ≠ some 5 :=
  ⟨by decide, by decide⟩

/-- C6 (amended): a count stored for the pair (i, j) is retrievable from
the map returned by getPairGameCounts under both the key (i, j) and the
key (j, i), provided the store holds at most one aggregated row per
unordered pair; with rows for both orientations the later row's count
overwrites both keys. -/
theorem pair_counts_bidirectional (rows : List (ℕ × ℕ × ℕ)) (i j c : ℕ)
    (hmem : (i, j, c) ∈ rows)
    (hdist : rows.Pairwise (fun r s => ¬ samePair r s)) :
    mapGet (getPairGameCounts rows) (i, j) = some c ∧
    mapGet (getPairGameCounts rows) (j, i) = some c :=
  foldl_setPairRow_mem i j c rows hmem hdist []

/-- Witness for C6: the two aggregated rows of the database test, looked
up in both directions. -/
theorem pair_counts_bidirectional_witness :
    mapGet (getPairGameCounts [(1, 2, 5), (2, 3, 3)]) (1, 2) = some 5 ∧
    mapGet (getPairGameCounts [(1, 2, 5), (2, 3, 3)]) (2, 1) = some 5 :=
  pair_counts_bidirectional [(1, 2, 5), (2, 3, 3)] 1 2 5 (by simp)
    (by simp [List.pairwise_cons, samePair])

/-- C7: engine names are unique: inserting a name that already exists in
the table is rejected with the unique-constraint error (the rejected
statement writes nothing, so the table is unchanged), and a successful
insert preserves distinctness of all names. -/
theorem engine_names_unique :
    (∀ (table : List EngineRow) (name : String) (rating : Option ℤ)
        (description : Option String),
      (∃ r ∈ table, r.name = name) →
      addEngine table name rating description =
        Except.error "duplicate key value violates unique constraint") ∧
    (∀ (table : List EngineRow) (name : String) (rating : Option ℤ)
        (description : Option String) (newTable : List EngineRow) (id : ℕ),
      (table.map (fun r => r.name)).Nodup →
      addEngine table name rating description = Except.ok (newTable, id) →
      (newTable.map (fun r => r.name)).Nodup) := by
  constructor
  · rintro table name rating description ⟨r, hr, hname⟩
    have hany : table.any (fun x => x.name = name) = true := by
      rw [List.any_eq_true]
      exact ⟨r, hr, by simp [hname]⟩
    simp [addEngine, hany]
  · intro table name rating description newTable id hnodup hok
    by_cases hany : table.any (fun x => x.name = name) = true
    · simp [addEngine, hany] at hok
    · unfold addEngine at hok
      rw [if_neg hany] at hok
      simp only [Except.ok.injEq, Prod.mk.injEq] at hok
      obtain ⟨htab, hid⟩ := hok
      subst htab
      rw [List.map_append, List.nodup_append]
      refine ⟨hnodup, by simp, ?_⟩
      intro a ha hb
      have hall : ∀ x ∈ table, ¬ x.name = name := by
        simpa [List.any_eq_true] using hany
      simp only [List.map_cons, List.map_nil, List.mem_singleton] at hb
      rcases List.mem_map.mp ha with ⟨r, hrmem, hrname⟩
      exact hall r hrmem (by rw [hrname, hb])

/-- Witness for C7: adding a second engine named UniqueEngine is rejected. -/
theorem engine_names_unique_witness :
    addEngine [⟨1, "UniqueEngine", 1500, none, 0, 0, 0, 0⟩] "UniqueEngine" none none =
      Except.error "duplicate key value violates unique constraint" :=
  engine_names_unique.1 [⟨1, "UniqueEngine", 1500, none, 0, 0, 0, 0⟩] "UniqueEngine"
    none none ⟨⟨1, "UniqueEngine", 1500, none, 0, 0, 0, 0⟩, by simp, rfl⟩

/-- C9: addEngine without an explicit rating or description inserts one row
with the default rating 1500 and a null description, and the id it returns
is the id of that newly inserted row. -/
theorem addEngine_defaults (table : List EngineRow) (name : String)
    (newTable : List EngineRow) (id : ℕ)
    (hok : addEngine table name none none = Except.ok (newTable, id)) :
    newTable = table ++ [⟨id, name, 1500, none, 0, 0, 0, 0⟩] := by
  by_cases hany : table.any (fun x => x.name = name) = true
  · simp [addEngine, hany] at hok
  · unfold addEngine at hok
    rw [if_neg hany] at hok
    simp only [Except.ok.injEq, Prod.mk.injEq] at hok
    obtain ⟨htab, hid⟩ := hok
    subst hid
    exact htab.symm

/-- Witness for C9: adding TestEngine to an empty table yields the single
row with id 1, rating 1500 and no description. -/
theorem addEngine_defaults_witness :
    ([⟨1, "TestEngine", 1500, none, 0, 0, 0, 0⟩] : List EngineRow) =
      [] ++ [⟨1, "TestEngine", 1500, none, 0, 0, 0, 0⟩] :=
  addEngine_defaults [] "TestEngine" [⟨1, "TestEngine", 1500, none, 0, 0, 0, 0⟩] 1 rfl

/-- C8: a game naming an engine id with no row in the engines table is
rejected with 'One or both engines not found'; the ratings are read before
any insert, so nothing is written to the games table. -/
theorem missing_engine_rejected (db : Database) (g : GameInput) (flag : Bool)
    (h : (∀ r ∈ db.engines, r.id ≠ g.engine1Id) ∨
      (∀ r ∈ db.engines, r.id ≠ g.engine2Id)) :
    recordGameResult db g flag = Except.error "One or both engines not found" := by
  rcases h with h | h
  · have hnone : findEngine db.engines g.engine1Id = none := by
      rw [findEngine, List.find?_eq_none]
      intro r hr
      simpa using h r hr
    rcases hfind : findEngine db.engines g.engine2Id with _ | e2 <;>
      simp [recordGameResult, hnone, hfind]
  · have hnone : findEngine db.engines g.engine2Id = none := by
      rw [findEngine, List.find?_eq_none]
      intro r hr
      simpa using h r hr
    rcases hfind : findEngine db.engines g.engine1Id with _ | e1 <;>
      simp [recordGameResult, hnone, hfind]

/-- Witness for C8: recording a game for the unknown engine id 999 fails. -/
theorem missing_engine_rejected_witness :
    recordGameResult ⟨[⟨1, "Engine1", 1500, none, 0, 0, 0, 0⟩], []⟩
        ⟨999, 1, GameOutcome.win⟩ true =
      Except.error "One or both engines not found" :=
  missing_engine_rejected ⟨[⟨1, "Engine1", 1500, none, 0, 0, 0, 0⟩], []⟩
    ⟨999, 1, GameOutcome.win⟩ true (Or.inl (by decide))

/-- C10: getRankings returns at most `limit` rows, sorted by rating in
non-increasing order, and the basic variant is the detailed variant with
the description erased (same rows, same order, same count). -/
theorem getRankings_spec (table : List EngineRow) (limit : ℕ) (detailed : Bool) :
    (getRankings table limit detailed).length ≤ limit ∧
    (getRankings table limit detailed).Pairwise (fun a b => b.rating ≤ a.rating) ∧
    getRankings table limit false =
      (getRankings table limit true).map (fun r => { r with description := none }) := by
  refine ⟨?_, ?_, ?_⟩
  · simp only [getRankings, List.length_map, List.length_take]
    exact min_le_left _ _
  · have htrans : ∀ a b c : EngineRow, decide (b.rating ≤ a.rating) = true →
        decide (c.rating ≤ b.rating) = true → decide (c.rating ≤ a.rating) = true := by
      intro a b c h1 h2
      simp only [decide_eq_true_eq] at *
      exact le_trans h2 h1
    have htotal : ∀ a b : EngineRow,
        (decide (b.rating ≤ a.rating) || decide (a.rating ≤ b.rating)) = true := by
      intro a b
      simpa using le_total b.rating a.rating
    have hsorted := List.sorted_mergeSort htrans htotal table
    have htake := List.Pairwise.sublist (List.take_sublist limit _) hsorted
    simp only [getRankings]
    exact List.Pairwise.map _ (fun a b h => of_decide_eq_true h) htake
  · simp only [getRankings, List.map_map]
    rfl

/-- Witness for C10: the length bound at a concrete table and limit. -/
theorem getRankings_spec_witness :
    (getRankings [⟨1, "Engine1", 1600, none, 10, 8, 2, 0⟩,
      ⟨2, "Engine2", 1500, none, 5, 3, 2, 0⟩] 10 true).length ≤ 10 :=
  (getRankings_spec [⟨1, "Engine1", 1600, none, 10, 8, 2, 0⟩,
    ⟨2, "Engine2", 1500, none, 5, 3, 2, 0⟩] 10 true).1
